import Mathlib

/-!
Verification of the Indra state-channel engine against its specification.

The development shallowly embeds the parts of the code base exercised by
the claims under examination:

* the SetState commitment digest (the `hashToSign` known-answer test in
  the commitment test suite, together with the spec formula);
* the `KeyValueStorage` store wrapper (`messaging.ts`): schema versioning,
  channel lookup by owners, `createAppInstance`, `createAppProposal`,
  `removeAppInstance`, `removeAppProposal`;
* the TakeAction protocol flows (`TAKE_ACTION_PROTOCOL`);
* the `MinimumViableMultisig` contract's `execTransaction`;
* the `ChainListener.parseLogsFrom` historical-log walker.

External cryptographic primitives (keccak256, ABI encoding, ECDSA
recovery) are out of scope per the spec and are passed in as function
parameters; machine integers are modelled as `Nat` (the quantities
involved — version numbers, block numbers, timeouts — are non-negative
and never overflow in the code paths modelled).
-/

namespace Indra

/-- A byte string, each element intended to lie below 256. -/
abbrev Bytes := List Nat

/-- Big-endian 32-byte encoding of a `uint256` value, as produced by
solidity packed encoding of a `uint256` argument. -/
def uint256be (n : Nat) : Bytes :=
  (List.range 32).map (fun i => n / 256 ^ (31 - i) % 256)

/-- Big-endian 20-byte encoding of an `address` value. -/
def addr20 (n : Nat) : Bytes :=
  (List.range 20).map (fun i => n / 256 ^ (19 - i) % 256)

/-! ## SetState commitment digest (claim C1)

The `SetStateCommitment` class itself is not part of the sources at hand
(only its test suite is), so `hashToSign` is modelled from the spec; the
expected digest is embedded from the known-answer test, which computes it
with `solidityPack` over the type list
`["bytes1", "bytes32", "uint256", "uint256", "bytes32"]`. -/

/-- `AppIdentity` as used by the commitment: channel nonce, sorted
participant addresses, app definition address, default timeout. -/
structure AppIdentity where
  channelNonce : Nat
  participants : List Nat
  appDefinition : Nat
  defaultTimeout : Nat
deriving Repr, DecidableEq

/-- An app instance as seen by the SetState commitment builder: its
identity, the keccak hash of its latest state, its version number and its
current state timeout. -/
structure AppInstance where
  identity : AppIdentity
  hashOfLatestState : Bytes
  versionNumber : Nat
  timeout : Nat
deriving Repr, DecidableEq

/-- `appIdentityToHash`: keccak256 of the ABI encoding of the identity.
Both keccak256 and `abi.encode` are external primitives, passed in. -/
def appIdentityToHash (keccak : Bytes → Bytes) (abiEncode : AppIdentity → Bytes)
    (identity : AppIdentity) : Bytes :=
  keccak (abiEncode identity)

/-- A value accepted by `solidityPack` in the digest computation. -/
inductive SolValue where
  | bytes1 (b : Nat)
  | bytes32 (bs : Bytes)
  | uint256 (n : Nat)
deriving Repr

/-- Packed encoding of a single solidity value: `bytes1` contributes one
byte, `bytes32` its 32 raw bytes, `uint256` its 32-byte big-endian form. -/
def packOne : SolValue → Bytes
  | .bytes1 b => [b % 256]
  | .bytes32 bs => bs
  | .uint256 n => uint256be n

/-- `solidityPack`: concatenation of the packed encodings. -/
def solidityPack (vs : List SolValue) : Bytes :=
  (vs.map packOne).flatten

/-- Modelled from the spec: `SetStateCommitment.hashToSign` (the class is
absent from the sources; only its test suite is present).  Per §4.1 the
digest is `keccak256(0x19 ‖ keccak256(abi.encode(identity)) ‖
uint256(versionNumber) ‖ uint256(stateTimeout) ‖ appStateHash)`. -/
def hashToSign (keccak : Bytes → Bytes) (abiEncode : AppIdentity → Bytes)
    (app : AppInstance) : Bytes :=
  keccak ([0x19] ++ appIdentityToHash keccak abiEncode app.identity
    ++ uint256be app.versionNumber ++ uint256be app.timeout
    ++ app.hashOfLatestState)

/-- The expected digest exactly as the commitment test computes it:
`keccak256(solidityPack(["bytes1","bytes32","uint256","uint256","bytes32"],
["0x19", appIdentityToHash(identity), versionNumber, timeout,
hashOfLatestState]))`. -/
def expectedHashToSign (keccak : Bytes → Bytes) (abiEncode : AppIdentity → Bytes)
    (app : AppInstance) : Bytes :=
  keccak (solidityPack
    [ .bytes1 0x19,
      .bytes32 (appIdentityToHash keccak abiEncode app.identity),
      .uint256 app.versionNumber,
      .uint256 app.timeout,
      .bytes32 app.hashOfLatestState ])

/-! ## Schema versioning (claim C3)

`KeyValueStorage.getSchemaVersion` / `updateSchemaVersion`.  The supported
`STORE_SCHEMA_VERSION` constant lives in an external types package, so it
is a parameter here.  The stored record is `{ version }` or absent. -/

/-- `getSchemaVersion`: the stored version, or 0 when absent
(`version?.version || 0`). -/
def getSchemaVersion (stored : Option Nat) : Nat :=
  match stored with
  | none => 0
  | some v => v

/-- `updateSchemaVersion`: throws when the requested version exceeds the
supported `STORE_SCHEMA_VERSION`; otherwise stores the requested version.
The stored version is never consulted. -/
def updateSchemaVersion (storeSchemaVersion : Nat) (version : Nat) :
    Except String (Option Nat) :=
  if storeSchemaVersion < version then
    .error ("Unrecognized store version: " ++ toString version)
  else
    .ok (some version)

/-! ## The key-value store (`KeyValueStorage`)

The store wraps keyed storage; each record type lives under its own key
prefix.  Channels, SetState commitments and conditional-transaction
commitments are the records the claims touch.  Commitment payloads are
treated opaquely by the store, so they are modelled as plain values. -/

/-- Opaque SetState commitment record as persisted by the store. -/
abbrev SSCRecord := Nat

/-- Opaque conditional-transaction commitment record. -/
abbrev CTCRecord := Nat

/-- `AppInstanceJson` as the store consumes it: only `identityHash` is
inspected; the remaining fields are an opaque payload. -/
structure AppInstanceJson where
  identityHash : String
  payload : Nat
deriving Repr, DecidableEq

/-- `AppInstanceProposal` as the store consumes it. -/
structure AppProposalJson where
  identityHash : String
  payload : Nat
deriving Repr, DecidableEq

/-- `StateChannelJSON`: the channel record persisted under
`channel/<multisig>`. -/
structure StateChannelJSON where
  multisigAddress : String
  userIdentifiers : List String
  freeBalanceAppInstance : AppInstanceJson
  appInstances : List (String × AppInstanceJson)
  proposedAppInstances : List (String × AppProposalJson)
  monotonicNumProposedApps : Nat
deriving Repr, DecidableEq

/-- The wrapped keyed storage, split by key prefix. -/
structure Store where
  channels : List (String × StateChannelJSON)
  setStateCommitments : List (String × SSCRecord)
  conditionalCommitments : List (String × CTCRecord)
deriving Repr, DecidableEq

/-- `getItem` on an association list. -/
def lookupA {α : Type} (l : List (String × α)) (k : String) : Option α :=
  (l.find? (fun p => p.1 == k)).map (·.2)

/-- `setItem` on an association list: overwrite in place, else append. -/
def setA {α : Type} (l : List (String × α)) (k : String) (v : α) :
    List (String × α) :=
  if l.any (fun p => p.1 == k) then
    l.map (fun p => if p.1 == k then (k, v) else p)
  else
    l ++ [(k, v)]

/-- `removeItem` on an association list. -/
def removeA {α : Type} (l : List (String × α)) (k : String) :
    List (String × α) :=
  l.filter (fun p => p.1 != k)

/-- `hasAppIdentityHash`: `findIndex(([idHash]) => idHash === hash) >= 0`. -/
def hasAppIdentityHash {α : Type} (hash : String) (toSearch : List (String × α)) :
    Bool :=
  toSearch.any (fun p => p.1 == hash)

/-- The `findIndex` / `splice(idx, 1)` pattern used by the store: remove
the first entry with the given hash; when `findIndex` returns `-1`,
`splice(-1, 1)` removes the LAST element instead (a JS quirk kept here for
fidelity; on an empty array it removes nothing). -/
def spliceOutByHash {α : Type} (l : List (String × α)) (hash : String) :
    List (String × α) :=
  match l.findIdx? (fun p => p.1 == hash) with
  | some i => l.eraseIdx i
  | none => l.dropLast

/-- `getAllChannels`: every channel record in the store. -/
def getAllChannels (store : Store) : List StateChannelJSON :=
  store.channels.map (·.2)

/-- `getStateChannel`: lookup under `channel/<multisig>`. -/
def getStateChannel (store : Store) (multisigAddress : String) :
    Option StateChannelJSON :=
  lookupA store.channels multisigAddress

/-- JS `Array.prototype.sort()` on strings: sort by the string order. -/
def jsSortStrings (l : List String) : List String :=
  l.insertionSort (· ≤ ·)

/-- JS `Array.prototype.toString()`: elements joined by commas. -/
def jsArrayToString (l : List String) : String :=
  String.intercalate "," l

/-- `getStateChannelByOwners`: the first channel whose sorted
`userIdentifiers`, rendered with `toString()`, match the sorted queried
owners rendered the same way. -/
def getStateChannelByOwners (store : Store) (owners : List String) :
    Option StateChannelJSON :=
  (getAllChannels store).find? (fun channel =>
    jsArrayToString (jsSortStrings channel.userIdentifiers)
      == jsArrayToString (jsSortStrings owners))

/-! ## Store mutations

The storage backend may fail a write; `Promise.all` still applies the
writes that do not fail, and the `catch` block then runs compensation
writes (assumed to succeed).  The oracle says which of the writes inside
the `try` block fail. -/

/-- Which writes inside a store operation's `try` block fail. -/
structure WriteOracle where
  channelWriteFails : Bool
  setStateWriteFails : Bool
  conditionalWriteFails : Bool
deriving Repr, DecidableEq

/-- The oracle under which every write succeeds. -/
def noWriteFailure : WriteOracle := ⟨false, false, false⟩

/-- `saveStateChannel`: store the record under its own
`multisigAddress`. -/
def saveStateChannel (store : Store) (stateChannel : StateChannelJSON) : Store :=
  { store with
    channels := setA store.channels stateChannel.multisigAddress stateChannel }

/-- `saveSetStateCommitment`: store under `setState/<appIdentityHash>`. -/
def saveSetStateCommitment (store : Store) (appIdentityHash : String)
    (commitment : SSCRecord) : Store :=
  { store with
    setStateCommitments := setA store.setStateCommitments appIdentityHash commitment }

/-- `removeSetStateCommitment`. -/
def removeSetStateCommitment (store : Store) (appIdentityHash : String) : Store :=
  { store with
    setStateCommitments := removeA store.setStateCommitments appIdentityHash }

/-- `saveConditionalTransactionCommitment`. -/
def saveConditionalTransactionCommitment (store : Store) (appIdentityHash : String)
    (commitment : CTCRecord) : Store :=
  { store with
    conditionalCommitments := setA store.conditionalCommitments appIdentityHash commitment }

/-- `removeConditionalTransactionCommitment`. -/
def removeConditionalTransactionCommitment (store : Store)
    (appIdentityHash : String) : Store :=
  { store with
    conditionalCommitments := removeA store.conditionalCommitments appIdentityHash }

/-- `createAppInstance`.  The source takes `const oldChannel = channel`
and then mutates `channel` in place (`appInstances.push`,
`proposedAppInstances.splice`), so `oldChannel` refers to the same object
and, at the `catch` block, holds the mutated value — the model binds
`oldChannel` to the mutated record accordingly.  The `catch` block runs
the compensation writes and swallows the error (it logs but never
rethrows).  Saving an absent (`undefined`) commitment is equivalent to
removal at the `getItem` boundary. -/
def createAppInstance (fail : WriteOracle) (store : Store)
    (multisigAddress : String) (appInstance freeBalanceAppInstance : AppInstanceJson)
    (signedFreeBalanceUpdate : SSCRecord)
    (signedConditionalTxCommitment : CTCRecord) : Store × Except String Unit :=
  match getStateChannel store multisigAddress with
  | none => (store, .error "Cant save app instance without channel")
  | some channel =>
    if hasAppIdentityHash appInstance.identityHash channel.appInstances then
      (store, .error ("App instance with hash " ++ appInstance.identityHash
        ++ " already exists"))
    else
      let mutated : StateChannelJSON := { channel with
        appInstances :=
          channel.appInstances ++ [(appInstance.identityHash, appInstance)],
        proposedAppInstances :=
          spliceOutByHash channel.proposedAppInstances appInstance.identityHash }
      let oldChannel := mutated
      let oldFreeBalanceUpdate :=
        lookupA store.setStateCommitments freeBalanceAppInstance.identityHash
      let anyFail := fail.channelWriteFails || fail.setStateWriteFails
        || fail.conditionalWriteFails
      let s1 := if fail.channelWriteFails then store
        else saveStateChannel store
          { mutated with freeBalanceAppInstance := freeBalanceAppInstance }
      let s2 := if fail.setStateWriteFails then s1
        else saveSetStateCommitment s1 freeBalanceAppInstance.identityHash
          signedFreeBalanceUpdate
      let s3 := if fail.conditionalWriteFails then s2
        else saveConditionalTransactionCommitment s2 appInstance.identityHash
          signedConditionalTxCommitment
      if anyFail then
        let r1 := saveStateChannel s3 oldChannel
        let r2 := match oldFreeBalanceUpdate with
          | some c =>
            saveSetStateCommitment r1 freeBalanceAppInstance.identityHash c
          | none =>
            removeSetStateCommitment r1 freeBalanceAppInstance.identityHash
        let r3 := removeConditionalTransactionCommitment r2 appInstance.identityHash
        (r3, .ok ())
      else (s3, .ok ())

/-- `createAppProposal`.  Throws before any write on a missing channel or
a duplicate proposal hash; on a write failure the `catch` block saves
`oldChannel` (which aliases the mutated record, as in
`createAppInstance`), removes the SetState commitment, and swallows the
error. -/
def createAppProposal (fail : WriteOracle) (store : Store)
    (multisigAddress : String) (appInstance : AppProposalJson)
    (monotonicNumProposedApps : Nat)
    (signedSetStateCommitment : SSCRecord) : Store × Except String Unit :=
  match getStateChannel store multisigAddress with
  | none => (store, .error "Cant save app proposal without channel")
  | some channel =>
    if hasAppIdentityHash appInstance.identityHash channel.proposedAppInstances then
      (store, .error ("App proposal with hash " ++ appInstance.identityHash
        ++ " already exists"))
    else
      let mutated : StateChannelJSON := { channel with
        proposedAppInstances :=
          channel.proposedAppInstances ++ [(appInstance.identityHash, appInstance)] }
      let oldChannel := mutated
      let anyFail := fail.channelWriteFails || fail.setStateWriteFails
      let s1 := if fail.channelWriteFails then store
        else saveStateChannel store
          { mutated with monotonicNumProposedApps := monotonicNumProposedApps }
      let s2 := if fail.setStateWriteFails then s1
        else saveSetStateCommitment s1 appInstance.identityHash
          signedSetStateCommitment
      if anyFail then
        let r1 := saveStateChannel s2 oldChannel
        let r2 := removeSetStateCommitment r1 appInstance.identityHash
        (r2, .ok ())
      else (s2, .ok ())

/-- `removeAppInstance`: returns silently when the channel or the app is
missing; otherwise splices the app out, saves the channel with the given
free balance and the free-balance SetState commitment, reverting (error
swallowed) on failure. -/
def removeAppInstance (fail : WriteOracle) (store : Store)
    (multisigAddress : String) (appIdentityHash : String)
    (freeBalanceAppInstance : AppInstanceJson)
    (signedFreeBalanceUpdate : SSCRecord) : Store × Except String Unit :=
  match getStateChannel store multisigAddress with
  | none => (store, .ok ())
  | some channel =>
    if !(hasAppIdentityHash appIdentityHash channel.appInstances) then
      (store, .ok ())
    else
      let mutated : StateChannelJSON := { channel with
        appInstances := spliceOutByHash channel.appInstances appIdentityHash }
      let oldChannel := mutated
      let oldFreeBalanceUpdate :=
        lookupA store.setStateCommitments channel.freeBalanceAppInstance.identityHash
      let anyFail := fail.channelWriteFails || fail.setStateWriteFails
      let s1 := if fail.channelWriteFails then store
        else saveStateChannel store
          { mutated with freeBalanceAppInstance := freeBalanceAppInstance }
      let s2 := if fail.setStateWriteFails then s1
        else saveSetStateCommitment s1 channel.freeBalanceAppInstance.identityHash
          signedFreeBalanceUpdate
      if anyFail then
        let r1 := saveStateChannel s2 oldChannel
        let r2 := match oldFreeBalanceUpdate with
          | some c =>
            saveSetStateCommitment r1 channel.freeBalanceAppInstance.identityHash c
          | none =>
            removeSetStateCommitment r1 channel.freeBalanceAppInstance.identityHash
        (r2, .ok ())
      else (s2, .ok ())

/-- `removeAppProposal`: returns silently when the channel or the proposal
is missing; otherwise splices the proposal out and saves the channel (a
single write with no `try`/`catch`, so its failure propagates). -/
def removeAppProposal (fail : WriteOracle) (store : Store)
    (multisigAddress : String) (appIdentityHash : String) :
    Store × Except String Unit :=
  match getStateChannel store multisigAddress with
  | none => (store, .ok ())
  | some channel =>
    if !(hasAppIdentityHash appIdentityHash channel.proposedAppInstances) then
      (store, .ok ())
    else
      let mutated : StateChannelJSON := { channel with
        proposedAppInstances :=
          spliceOutByHash channel.proposedAppInstances appIdentityHash }
      if fail.channelWriteFails then (store, .error "channel write failed")
      else (saveStateChannel store mutated, .ok ())

/-- A concrete channel fixture: multisig `"m"`, one accepted proposal
under hash `"h"`, no installed apps. -/
def exnChannel : StateChannelJSON :=
  { multisigAddress := "m"
    userIdentifiers := ["a", "b"]
    freeBalanceAppInstance := ⟨"fb", 0⟩
    appInstances := []
    proposedAppInstances := [("h", ⟨"h", 7⟩)]
    monotonicNumProposedApps := 1 }

/-- A concrete store fixture holding only `exnChannel`. -/
def exnStore : Store :=
  { channels := [("m", exnChannel)]
    setStateCommitments := []
    conditionalCommitments := [] }

/-- The empty store fixture. -/
def emptyStore : Store :=
  { channels := [], setStateCommitments := [], conditionalCommitments := [] }

/-- `exnChannel` after the botched install revert: app `"h"` installed,
proposal gone. -/
def exnChannelAfterRevert : StateChannelJSON :=
  { multisigAddress := "m"
    userIdentifiers := ["a", "b"]
    freeBalanceAppInstance := ⟨"fb", 0⟩
    appInstances := [("h", ⟨"h", 7⟩)]
    proposedAppInstances := []
    monotonicNumProposedApps := 1 }

/-! ## MinimumViableMultisig (`execTransaction`)

Addresses, signatures and words are modelled as `Nat`; keccak256 and
ECDSA recovery are external primitives passed in.  A failed `require`
reverts the whole call, so the model marks the transaction hash as
executed only on overall success even though the storage write textually
precedes the signature loop. -/

/-- Multisig contract storage: the owner addresses and the set of
transaction hashes already executed. -/
structure MultisigState where
  owners : List Nat
  isExecuted : List Bytes
deriving Repr, DecidableEq

/-- `getDomainSeparatorHash`:
`keccak256(abi.encodePacked(keccak256(domainName), keccak256(domainVersion),
chainId, address(this), domainSalt))`. -/
def getDomainSeparatorHash (keccak : Bytes → Bytes) (self : Nat)
    (domainName domainVersion : Bytes) (chainId : Nat) (domainSalt : Bytes) :
    Bytes :=
  keccak (keccak domainName ++ keccak domainVersion ++ uint256be chainId
    ++ addr20 self ++ domainSalt)

/-- `getTransactionHash`:
`keccak256(abi.encodePacked(bytes1(0x19), _owners, to, value,
keccak256(abi.encodePacked(data)), uint8(operation), domainSeparatorHash,
nonce))`.  Packed encoding of the dynamic `address[]` array pads each
element to 32 bytes. -/
def getTransactionHash (keccak : Bytes → Bytes) (owners : List Nat)
    (toAddr value : Nat) (data : Bytes) (operation : Nat)
    (domainSeparatorHash : Bytes) (nonce : Nat) : Bytes :=
  keccak ([0x19] ++ (owners.map uint256be).flatten ++ addr20 toAddr
    ++ uint256be value ++ keccak data ++ [operation % 256]
    ++ domainSeparatorHash ++ uint256be nonce)

/-- The transaction hash as `execTransaction` computes it from its raw
arguments. -/
def txHashOfCall (keccak : Bytes → Bytes) (owners : List Nat)
    (self toAddr value : Nat) (data : Bytes) (operation : Nat)
    (domainName domainVersion : Bytes) (chainId : Nat) (domainSalt : Bytes)
    (nonce : Nat) : Bytes :=
  getTransactionHash keccak owners toAddr value data operation
    (getDomainSeparatorHash keccak self domainName domainVersion chainId
      domainSalt) nonce

/-- The signature loop of `execTransaction`: for each owner in order,
`require(_owners[i] == transactionHash.recover(signatures[i]))` then
`require(_owners[i] > lastSigner)`; an out-of-range `signatures[i]`
access reverts. -/
def checkSigs (recover : Bytes → Nat → Nat) (txHash : Bytes) :
    Nat → List Nat → List Nat → Except String Unit
  | _, [], _ => .ok ()
  | _, _ :: _, [] => .error "signature index out of bounds"
  | lastSigner, o :: os, s :: ss =>
    if recover txHash s = o then
      if lastSigner < o then checkSigs recover txHash o os ss
      else .error "Signers not in alphanumeric order"
    else .error "Invalid signature"

/-- `execTransaction`: reject a replayed transaction hash, check every
owner's signature in strictly ascending owner order, then run the inner
call; on success the hash is recorded as executed. -/
def execTransaction (keccak : Bytes → Bytes) (recover : Bytes → Nat → Nat)
    (st : MultisigState) (self toAddr value : Nat) (data : Bytes)
    (operation : Nat) (domainName domainVersion : Bytes) (chainId : Nat)
    (domainSalt : Bytes) (nonce : Nat) (signatures : List Nat) :
    Except String MultisigState :=
  let transactionHash := txHashOfCall keccak st.owners self toAddr value data
    operation domainName domainVersion chainId domainSalt nonce
  if transactionHash ∈ st.isExecuted then
    .error "Transacation has already been executed"
  else
    match checkSigs recover transactionHash 0 st.owners signatures with
    | .error e => .error e
    | .ok () => .ok { st with isExecuted := transactionHash :: st.isExecuted }

/-- Multisig fixture: two owners at addresses 1 and 2, nothing executed. -/
def msState : MultisigState := { owners := [1, 2], isExecuted := [] }

/-- Recovery fixture: a "signature" recovers to itself as an address. -/
def msRecover : Bytes → Nat → Nat := fun _ s => s

/-- The transaction hash of the fixture call (identity keccak, all-zero
arguments, empty data). -/
def msTxHash : Bytes := txHashOfCall id [1, 2] 0 0 0 [] 0 [] [] 0 [] 0

/-! ## ChainListener.parseLogsFrom

One `ChainView` per configured chain id; `getLogs` per event filter and
block range is the external RPC, supplied as functions.  Log payloads are
opaque (ABI parsing is external); events are posted to the
`evtChallengeUpdated` / `evtStateProgressed` channels, modelled as the two
event lists the call emits. -/

/-- While fetching historical data, we query this many blocks at a time. -/
def chunkSize : Nat := 30

/-- One chain as the listener sees it: current head block and the logs
returned by `getLogs` for each filter over an inclusive block range. -/
structure ChainView where
  head : Nat
  updatedLogs : Nat → Nat → List Nat
  progressedLogs : Nat → Nat → List Nat

/-- The chunked fetch loop of `parseLogsFrom` for one chain: iterate
`index` from 0, fetching `[fromBlock, toBlock]` per chunk, breaking once
`toBlock` reaches the head.  `fuel` is `nChunks + 1 - index`, matching the
`index <= nChunks` loop bound. -/
def fetchChunks (chain : ChainView) (startingBlock currentBlock : Nat) :
    Nat → Nat → List Nat × List Nat
  | 0, _ => ([], [])
  | fuel + 1, index =>
    let fromBlock := startingBlock + index * chunkSize
    let nextChunk := startingBlock + (index + 1) * chunkSize - 1
    let toBlock := if currentBlock ≤ nextChunk then currentBlock else nextChunk
    let newUpdated := chain.updatedLogs fromBlock toBlock
    let newProgressed := chain.progressedLogs fromBlock toBlock
    if toBlock = currentBlock then (newUpdated, newProgressed)
    else
      let rest := fetchChunks chain startingBlock currentBlock fuel (index + 1)
      (newUpdated ++ rest.1, newProgressed ++ rest.2)

/-- `parseLogsFrom`: for each chain, fail when the starting block is past
the head, else walk chunks up to the head and post every parsed log on
its event channel.  The result pairs the per-channel emissions
(`evtChallengeUpdated`, `evtStateProgressed`) with the outcome; events
posted before a later chain fails remain posted. -/
def parseLogsFrom (chains : List ChainView) (startingBlock : Nat) :
    (List Nat × List Nat) × Except String Unit :=
  match chains with
  | [] => (([], []), .ok ())
  | chain :: rest =>
    if chain.head < startingBlock then
      (([], []), .error ("Cannot parse events past current block (current: "
        ++ toString chain.head ++ ", starting: " ++ toString startingBlock ++ ")"))
    else
      let nChunks := ((chain.head - startingBlock) + (chunkSize - 1)) / chunkSize
      let fetched := fetchChunks chain startingBlock chain.head (nChunks + 1) 0
      let moreRes := parseLogsFrom rest startingBlock
      ((fetched.1 ++ moreRes.1.1, fetched.2 ++ moreRes.1.2), moreRes.2)

/-! ## The TakeAction protocol (`TAKE_ACTION_PROTOCOL`)

The two generator flows are embedded as functions from their inputs (the
channel snapshot, the protocol parameters, the counterparty's signature
carried by the wire message, and the engine-supplied results of `OP_SIGN`
and `OP_VALIDATE`) to the list of instructions they yield plus the
outcome.  The `StateChannel` / `AppInstance` classes and
`assertIsValidSignature` are not among the sources at hand, so they are
modelled from the spec (§3, §4.2, §7); the protocol flows themselves
follow the source. -/

/-- An app instance inside the protocol channel model (spec §3): its
commitment identity, latest state (raw bytes; the hash is recomputed),
version number, state timeout, and optional pending action. -/
structure PAppInstance where
  identity : AppIdentity
  latestState : Bytes
  versionNumber : Nat
  timeout : Nat
  latestAction : Option Nat
deriving Repr, DecidableEq

/-- The protocol-level state channel: apps keyed by identity hash. -/
structure PStateChannel where
  apps : List (String × PAppInstance)
deriving Repr, DecidableEq

/-- `StateChannel.getAppInstance` (throws upstream when absent). -/
def getAppInstanceP (ch : PStateChannel) (appIdentityHash : String) :
    Option PAppInstance :=
  lookupA ch.apps appIdentityHash

/-- Modelled from the spec (§4.2 `setState`, §4.3 step 8): replace the
named app with one carrying the new state, the version number incremented
by one, the given state timeout, and the pending action cleared. -/
def setStateP (ch : PStateChannel) (appIdentityHash : String)
    (app : PAppInstance) (newState : Bytes) (stateTimeout : Nat) :
    PStateChannel :=
  { apps := ch.apps.map (fun p =>
      if p.1 == appIdentityHash then
        (appIdentityHash,
          { app with
            latestState := newState
            versionNumber := app.versionNumber + 1
            timeout := stateTimeout
            latestAction := none })
      else p) }

/-- `AppInstance.setAction`: mark the app with the pending action. -/
def setActionP (app : PAppInstance) (action : Nat) : PAppInstance :=
  { app with latestAction := some action }

/-- The commitment view of a protocol app instance: the digest inputs of
its SetState commitment. -/
def commitmentView (keccak : Bytes → Bytes) (app : PAppInstance) :
    AppInstance :=
  { identity := app.identity
    hashOfLatestState := keccak app.latestState
    versionNumber := app.versionNumber
    timeout := app.timeout }

/-- A SetState commitment inside the protocol: digest inputs plus the
signatures attached so far (`addSignatures` stores the given list). -/
structure PSetStateCommitment where
  app : AppInstance
  signatures : List Nat
deriving Repr, DecidableEq

/-- `getSetStateCommitment`: a fresh unsigned commitment over the app. -/
def getSetStateCommitmentP (keccak : Bytes → Bytes) (app : PAppInstance) :
    PSetStateCommitment :=
  { app := commitmentView keccak app, signatures := [] }

/-- Modelled from the spec (§7 *SignatureMismatch*):
`assertIsValidSignature` recovers the signer address from the digest and
the signature and aborts with an error unless it equals the expected
participant address. -/
def assertIsValidSignature (recover : Bytes → Nat → Nat) (expected : Nat)
    (digest : Bytes) (signature : Nat) : Except String Unit :=
  if recover digest signature = expected then .ok ()
  else .error "Invalid signature"

/-- An instruction yielded (or an awaited signature check performed) by a
protocol flow, in execution order. -/
inductive Instr where
  | opValidate
  | opSign (digest : Bytes)
  | persistAppInstance (channel : PStateChannel) (app : PAppInstance)
      (commitment : PSetStateCommitment)
  | ioSendAndWait (signature : Nat)
  | ioSend (signature : Nat)
  | verifySig (expected : Nat) (signature : Nat)
deriving Repr, DecidableEq

/-- The engine-side capabilities a flow consumes: hashing, ECDSA recovery,
the EVM state transition, the local signer (`OP_SIGN`), and the
middleware verdict (`OP_VALIDATE`). -/
structure ProtocolEnv where
  keccak : Bytes → Bytes
  abiEncode : AppIdentity → Bytes
  recover : Bytes → Nat → Nat
  applyAction : Bytes → Nat → Bytes
  sign : Bytes → Nat
  validationError : Option String

/-- TakeAction protocol parameters: the app under action, the derived
signer address of the counterparty, the action, and the state timeout. -/
structure TakeActionParams where
  appIdentityHash : String
  counterpartyAddr : Nat
  action : Nat
  stateTimeout : Nat

/-- The SetState digest both TakeAction flows compute for the
post-transition app. -/
def takeActionDigest (env : ProtocolEnv) (app : PAppInstance)
    (action stateTimeout : Nat) : Bytes :=
  hashToSign env.keccak env.abiEncode
    { identity := app.identity
      hashOfLatestState := env.keccak (env.applyAction app.latestState action)
      versionNumber := app.versionNumber + 1
      timeout := stateTimeout }

/-- The initiating flow of `TAKE_ACTION_PROTOCOL`: validate, compute the
post-state, sign the new SetState digest, persist the single-signed
commitment with the app marked by the pending action, send-and-wait,
verify the responder's signature, then persist the double-signed
commitment with the new app state. -/
def takeActionInitiator (env : ProtocolEnv)
    (preProtocolStateChannel : Option PStateChannel)
    (params : TakeActionParams) (counterpartySig : Nat) :
    List Instr × Except String Unit :=
  match preProtocolStateChannel with
  | none => ([], .error "No state channel found for takeAction")
  | some preChannel =>
    match getAppInstanceP preChannel params.appIdentityHash with
    | none => ([], .error "No app instance found")
    | some preAppInstance =>
      match env.validationError with
      | some e => ([.opValidate], .error e)
      | none =>
        let postChannel := setStateP preChannel params.appIdentityHash
          preAppInstance
          (env.applyAction preAppInstance.latestState params.action)
          params.stateTimeout
        match getAppInstanceP postChannel params.appIdentityHash with
        | none => ([.opValidate], .error "No app instance found")
        | some appInstance =>
          let setStateCommitment := getSetStateCommitmentP env.keccak appInstance
          let setStateCommitmentHash :=
            hashToSign env.keccak env.abiEncode setStateCommitment.app
          let mySignature := env.sign setStateCommitmentHash
          let singleSigned :=
            { setStateCommitment with signatures := [mySignature] }
          let trace1 : List Instr :=
            [.opValidate, .opSign setStateCommitmentHash,
              .persistAppInstance preChannel
                (setActionP preAppInstance params.action) singleSigned,
              .ioSendAndWait mySignature,
              .verifySig params.counterpartyAddr counterpartySig]
          match assertIsValidSignature env.recover params.counterpartyAddr
              setStateCommitmentHash counterpartySig with
          | .error e => (trace1, .error e)
          | .ok _ =>
            let doubleSigned := { setStateCommitment with
              signatures := [mySignature, counterpartySig] }
            (trace1 ++ [.persistAppInstance postChannel appInstance doubleSigned],
              .ok ())

/-- The responding flow of `TAKE_ACTION_PROTOCOL`: validate, compute the
post-state, verify the initiator's signature before signing, sign,
persist only the double-signed commitment, and send the reply. -/
def takeActionResponder (env : ProtocolEnv)
    (preProtocolStateChannel : Option PStateChannel)
    (params : TakeActionParams) (counterpartySignature : Nat) :
    List Instr × Except String Unit :=
  match preProtocolStateChannel with
  | none => ([], .error "No state channel found for takeAction")
  | some preChannel =>
    match getAppInstanceP preChannel params.appIdentityHash with
    | none => ([], .error "No app instance found")
    | some preAppInstance =>
      match env.validationError with
      | some e => ([.opValidate], .error e)
      | none =>
        let postChannel := setStateP preChannel params.appIdentityHash
          preAppInstance
          (env.applyAction preAppInstance.latestState params.action)
          params.stateTimeout
        match getAppInstanceP postChannel params.appIdentityHash with
        | none => ([.opValidate], .error "No app instance found")
        | some appInstance =>
          let setStateCommitment := getSetStateCommitmentP env.keccak appInstance
          let setStateCommitmentHash :=
            hashToSign env.keccak env.abiEncode setStateCommitment.app
          match assertIsValidSignature env.recover params.counterpartyAddr
              setStateCommitmentHash counterpartySignature with
          | .error e =>
            ([.opValidate,
              .verifySig params.counterpartyAddr counterpartySignature], .error e)
          | .ok _ =>
            let mySignature := env.sign setStateCommitmentHash
            let doubleSigned := { setStateCommitment with
              signatures := [mySignature, counterpartySignature] }
            ([.opValidate,
              .verifySig params.counterpartyAddr counterpartySignature,
              .opSign setStateCommitmentHash,
              .persistAppInstance postChannel appInstance doubleSigned,
              .ioSend mySignature], .ok ())

/-- The post-transition app instance both TakeAction flows compute. -/
def postAppOf (env : ProtocolEnv) (app : PAppInstance) (action t : Nat) : PAppInstance :=
  { app with latestState := env.applyAction app.latestState action, versionNumber := app.versionNumber + 1, timeout := t, latestAction := none }

/-- The commitment view of the post-transition app. -/
def postCommitmentView (env : ProtocolEnv) (app : PAppInstance) (action t : Nat) : AppInstance :=
  { identity := app.identity, hashOfLatestState := env.keccak (env.applyAction app.latestState action), versionNumber := app.versionNumber + 1, timeout := t }

/-- The single-signed SetState commitment the initiator persists. -/
def singleSignedOf (env : ProtocolEnv) (app : PAppInstance) (action t : Nat) : PSetStateCommitment :=
  { app := postCommitmentView env app action t, signatures := [env.sign (takeActionDigest env app action t)] }

/-- The double-signed SetState commitment both parties persist. -/
def doubleSignedOf (env : ProtocolEnv) (app : PAppInstance) (action t : Nat) (counterSig : Nat) : PSetStateCommitment :=
  { app := postCommitmentView env app action t, signatures := [env.sign (takeActionDigest env app action t), counterSig] }

/-- Protocol fixture: the app under test. -/
def app0W : PAppInstance := { identity := ⟨0, [1, 2], 0, 0⟩, latestState := [], versionNumber := 0, timeout := 0, latestAction := none }

/-- Protocol fixture: a channel holding `app0W` under hash `"h"`. -/
def chW : PStateChannel := { apps := [("h", app0W)] }

/-- Protocol fixture: identity hashing, self-recovering signatures, a
state transition that records the action, a constant signer, and a
passing middleware. -/
def envW : ProtocolEnv := { keccak := id, abiEncode := fun _ => [], recover := fun _ s => s, applyAction := fun _ a => [a], sign := fun _ => 10, validationError := none }

/-- Protocol fixture: acting on `"h"` with counterparty address 42. -/
def paramsW : TakeActionParams := { appIdentityHash := "h", counterpartyAddr := 42, action := 3, stateTimeout := 7 }

end Indra

namespace Indra

/-- One step of `lookupA` on a cons cell. -/
theorem lookupA_cons {α : Type} (p : String × α) (l : List (String × α))
    (k : String) :
    lookupA (p :: l) k = if p.1 == k then some p.2 else lookupA l k := by
  unfold lookupA
  by_cases hp : (p.1 == k) = true
  · rw [@List.find?_cons_of_pos _ (fun q => q.1 == k) p l hp, if_pos hp]
    rfl
  · rw [@List.find?_cons_of_neg _ (fun q => q.1 == k) p l hp, if_neg hp]

/-- The overwrite branch of `setA`: after mapping the matched binding to
the new value, the lookup finds the new value. -/
theorem lookupA_mapSet {α : Type} (l : List (String × α)) (k : String) (v : α)
    (h : l.any (fun p => p.1 == k) = true) :
    lookupA (l.map (fun p => if p.1 == k then (k, v) else p)) k = some v := by
  induction l with
  | nil => simp at h
  | cons p l ih =>
    by_cases hp : (p.1 == k) = true
    · have hpe : p.1 = k := by simpa using hp
      simp [List.map_cons, lookupA_cons, hpe]
    · have hpe : ¬(p.1 = k) := by simpa using hp
      have h' : l.any (fun p => p.1 == k) = true := by
        simpa [List.any_cons, hpe] using h
      simpa [List.map_cons, lookupA_cons, hpe] using ih h'

/-- Appending a binding for a key absent from the list makes it the one
the lookup finds. -/
theorem lookupA_append_fresh {α : Type} (l : List (String × α)) (k : String)
    (v : α) (h : l.any (fun p => p.1 == k) = false) :
    lookupA (l ++ [(k, v)]) k = some v := by
  induction l with
  | nil => simp [lookupA]
  | cons p l ih =>
    simp only [List.any_cons, Bool.or_eq_false_iff] at h
    have hpe : ¬(p.1 = k) := by simpa using h.1
    simpa [List.cons_append, lookupA_cons, hpe] using ih h.2

/-- Looking up a key right after setting it yields the new value. -/
theorem lookupA_setA {α : Type} (l : List (String × α)) (k : String) (v : α) :
    lookupA (setA l k v) k = some v := by
  unfold setA
  cases hb : l.any (fun p => p.1 == k) with
  | true =>
    rw [if_pos rfl]
    exact lookupA_mapSet l k v hb
  | false =>
    rw [if_neg (by simp)]
    exact lookupA_append_fresh l k v hb

/-- C1: the SetState commitment's `hashToSign` equals keccak256 of the
solidity packed encoding of `0x19`, the identity hash, the version number
and state timeout as `uint256`, and the latest-state hash. -/
theorem setState_hashToSign_spec (keccak : Bytes → Bytes)
    (abiEncode : AppIdentity → Bytes) (app : AppInstance) :
    hashToSign keccak abiEncode app = expectedHashToSign keccak abiEncode app := by
  simp [hashToSign, expectedHashToSign, solidityPack, packOne,
    appIdentityToHash]

/-- C3 counterexample: with supported version 1 and stored version 1, the
downgrade request `updateSchemaVersion(0)` succeeds and stores 0, so the
claim that every `w < v` is rejected is false. -/
theorem updateSchemaVersion_downgrade_accepted :
    getSchemaVersion (some 1) = 1 ∧ (0 : Nat) < 1
      ∧ updateSchemaVersion 1 0 = .ok (some 0) := by
  refine ⟨rfl, by decide, ?_⟩
  simp [updateSchemaVersion]

/-- C3 (amended): `updateSchemaVersion(w)` fails exactly when `w` exceeds
the supported `STORE_SCHEMA_VERSION`; every `w` up to the supported
version — downgrades included — succeeds and stores `w`, regardless of the
stored version. -/
theorem updateSchemaVersion_threshold (supported w : Nat) :
    ((∃ e, updateSchemaVersion supported w = .error e) ↔ supported < w)
      ∧ (w ≤ supported → updateSchemaVersion supported w = .ok (some w)) := by
  constructor
  · constructor
    · rintro ⟨e, he⟩
      by_contra hlt
      simp [updateSchemaVersion, hlt] at he
    · intro hlt
      exact ⟨"Unrecognized store version: " ++ toString w,
        by simp [updateSchemaVersion, hlt]⟩
  · intro hle
    simp [updateSchemaVersion, Nat.not_lt.mpr hle]

/-- C3 witness: instantiating the amended claim at supported version 1 and
requested version 0. -/
theorem updateSchemaVersion_threshold_witness :
    (0 : Nat) ≤ 1 ∧ updateSchemaVersion 1 0 = .ok (some 0) :=
  ⟨by decide, (updateSchemaVersion_threshold 1 0).2 (by decide)⟩

/-- Sorting a two-element string list is invariant under swapping the
elements. -/
theorem jsSortStrings_pair_comm (a b : String) :
    jsSortStrings [a, b] = jsSortStrings [b, a] := by
  simp only [jsSortStrings, List.insertionSort, List.orderedInsert]
  rcases le_total a b with hab | hba
  · rcases le_or_lt b a with hba | hlt
    · have : a = b := le_antisymm hab hba
      subst this
      simp
    · simp [hab, not_le.mpr hlt]
  · rcases le_or_lt a b with hab | hlt
    · have : a = b := le_antisymm hab hba
      subst this
      simp
    · simp [hba, not_le.mpr hlt]

/-- C9: `getStateChannelByOwners` is commutative in the two queried
owners, because both the query and each channel's `userIdentifiers` are
sorted before comparison. -/
theorem getStateChannelByOwners_comm (store : Store) (a b : String) :
    getStateChannelByOwners store [a, b] = getStateChannelByOwners store [b, a] := by
  unfold getStateChannelByOwners
  rw [jsSortStrings_pair_comm]

/-- C2: evaluating `createAppInstance` on a channel holding the accepted
proposal `"h"`, with the conditional-transaction-commitment write failing
after the channel write succeeded.  Contrary to the claim, the function
returns success (the caught error is never rethrown) and the "reverted"
channel has the app instance present and the proposal gone, because
`oldChannel` aliases the in-place-mutated channel object. -/
theorem createAppInstance_revert_divergence :
    (createAppInstance ⟨false, false, true⟩ exnStore "m" ⟨"h", 7⟩ ⟨"fb", 1⟩ 5 9).2
        = .ok ()
      ∧ ∃ ch,
        getStateChannel
            (createAppInstance ⟨false, false, true⟩ exnStore "m"
              ⟨"h", 7⟩ ⟨"fb", 1⟩ 5 9).1 "m" = some ch
          ∧ hasAppIdentityHash "h" ch.appInstances = true
          ∧ hasAppIdentityHash "h" ch.proposedAppInstances = false := by
  refine ⟨rfl, ⟨exnChannelAfterRevert, ?_, ?_, ?_⟩⟩
  · rfl
  · rfl
  · rfl

/-- C7: on a channel that exists under the queried multisig, a proposal
whose `identityHash` already appears in `proposedAppInstances` is rejected
with an AlreadyExists-style error before any write, under every write
oracle; a fresh `identityHash` (with writes succeeding) is inserted and
the call returns success. -/
theorem createAppProposal_dup_and_fresh (fail : WriteOracle) (store : Store)
    (multisig : String) (prop : AppProposalJson) (mono : Nat) (ssc : SSCRecord)
    (channel : StateChannelJSON)
    (hch : getStateChannel store multisig = some channel)
    (hkey : channel.multisigAddress = multisig) :
    (hasAppIdentityHash prop.identityHash channel.proposedAppInstances = true →
      createAppProposal fail store multisig prop mono ssc =
        (store, .error ("App proposal with hash " ++ prop.identityHash
          ++ " already exists")))
      ∧ (hasAppIdentityHash prop.identityHash channel.proposedAppInstances = false →
          ∃ channel2,
            getStateChannel
                (createAppProposal noWriteFailure store multisig prop mono ssc).1
                multisig = some channel2
              ∧ lookupA channel2.proposedAppInstances prop.identityHash = some prop
              ∧ (createAppProposal noWriteFailure store multisig prop mono ssc).2
                  = .ok ()) := by
  constructor
  · intro hdup
    unfold createAppProposal
    rw [hch]
    simp [hdup]
  · intro hfresh
    unfold createAppProposal
    rw [hch]
    simp only [hfresh, Bool.false_eq_true, if_false, noWriteFailure,
      Bool.or_self, saveStateChannel, saveSetStateCommitment]
    refine ⟨{ channel with proposedAppInstances := channel.proposedAppInstances ++ [(prop.identityHash, prop)], monotonicNumProposedApps := mono }, ?_, ?_, trivial⟩
    · show lookupA (setA store.channels channel.multisigAddress _) multisig = _
      rw [hkey]
      exact lookupA_setA _ _ _
    · exact lookupA_append_fresh _ _ _ hfresh

/-- C7 witness: the duplicate branch at the concrete fixture store. -/
theorem createAppProposal_dup_witness :
    getStateChannel exnStore "m" = some exnChannel
      ∧ exnChannel.multisigAddress = "m"
      ∧ hasAppIdentityHash "h" exnChannel.proposedAppInstances = true
      ∧ createAppProposal noWriteFailure exnStore "m" ⟨"h", 7⟩ 2 0 =
          (exnStore, .error "App proposal with hash h already exists") :=
  ⟨rfl, rfl, rfl,
    (createAppProposal_dup_and_fresh noWriteFailure exnStore "m" ⟨"h", 7⟩ 2 0
      exnChannel rfl rfl).1 rfl⟩

/-- C10: `removeAppInstance` and `removeAppProposal` are silent no-ops —
success with the store untouched — when the channel is missing, or when
the channel exists but the referenced app instance (resp. proposal) is
absent. -/
theorem remove_missing_is_noop (fail : WriteOracle) (store : Store)
    (multisig hash : String) (fb : AppInstanceJson) (upd : SSCRecord) :
    (getStateChannel store multisig = none →
      removeAppInstance fail store multisig hash fb upd = (store, .ok ())
        ∧ removeAppProposal fail store multisig hash = (store, .ok ()))
      ∧ (∀ channel, getStateChannel store multisig = some channel →
          (hasAppIdentityHash hash channel.appInstances = false →
            removeAppInstance fail store multisig hash fb upd = (store, .ok ()))
            ∧ (hasAppIdentityHash hash channel.proposedAppInstances = false →
              removeAppProposal fail store multisig hash = (store, .ok ()))) := by
  constructor
  · intro hnone
    constructor
    · unfold removeAppInstance
      rw [hnone]
    · unfold removeAppProposal
      rw [hnone]
  · intro channel hch
    constructor
    · intro habs
      unfold removeAppInstance
      rw [hch]
      simp [habs]
    · intro habs
      unfold removeAppProposal
      rw [hch]
      simp [habs]

/-- C10 witness: both removals on the empty store and on the fixture
channel with an unknown hash. -/
theorem remove_missing_is_noop_witness :
    getStateChannel emptyStore "m" = none
      ∧ removeAppInstance noWriteFailure emptyStore "m" "h" ⟨"fb", 0⟩ 0 =
          (emptyStore, .ok ())
      ∧ removeAppProposal noWriteFailure emptyStore "m" "h" =
          (emptyStore, .ok ()) := by
  have h := (remove_missing_is_noop noWriteFailure emptyStore "m" "h" ⟨"fb", 0⟩ 0).1 rfl
  exact ⟨rfl, h.1, h.2⟩

/-- If the signature loop succeeds, every owner was matched by the
recovery of its signature in order, the owners ascend strictly from the
initial last-signer, and there were at least as many signatures as
owners. -/
theorem checkSigs_ok (recover : Bytes → Nat → Nat) (txHash : Bytes)
    (os : List Nat) :
    ∀ (last : Nat) (ss : List Nat),
      checkSigs recover txHash last os ss = .ok () →
      List.Chain (· < ·) last os ∧ os.length ≤ ss.length
        ∧ ∀ p ∈ os.zip ss, recover txHash p.2 = p.1 := by
  induction os with
  | nil =>
    intro last ss _
    exact ⟨List.Chain.nil, by simp, by simp⟩
  | cons o os ih =>
    intro last ss h
    match ss with
    | [] => simp [checkSigs] at h
    | s :: ss =>
      by_cases h1 : recover txHash s = o
      · by_cases h2 : last < o
        · rw [show checkSigs recover txHash last (o :: os) (s :: ss)
              = checkSigs recover txHash o os ss by
            simp [checkSigs, h1, h2]] at h
          obtain ⟨hc, hl, hz⟩ := ih o ss h
          refine ⟨List.Chain.cons h2 hc, by simpa using hl, ?_⟩
          intro p hp
          rcases List.mem_cons.mp hp with hp | hp
          · rw [hp]
            exact h1
          · exact hz p hp
        · simp [checkSigs, h1, h2] at h
      · simp [checkSigs, h1] at h

/-- C6: if `execTransaction` runs the inner call (returns the updated
state), then the transaction hash had not been executed before, the
owners are strictly ascending (all nonzero), every owner's signature
recovers to that owner over the transaction hash; and resubmitting the
same transaction to the resulting state is rejected, whatever signatures
accompany it. -/
theorem execTransaction_auth_and_replay (keccak : Bytes → Bytes)
    (recover : Bytes → Nat → Nat) (st st2 : MultisigState)
    (self toAddr value : Nat) (data : Bytes) (operation : Nat)
    (domainName domainVersion : Bytes) (chainId : Nat) (domainSalt : Bytes)
    (nonce : Nat) (sigs : List Nat)
    (h : execTransaction keccak recover st self toAddr value data operation
      domainName domainVersion chainId domainSalt nonce sigs = .ok st2) :
    txHashOfCall keccak st.owners self toAddr value data operation domainName
        domainVersion chainId domainSalt nonce ∉ st.isExecuted
      ∧ List.Chain (· < ·) 0 st.owners
      ∧ st.owners.length ≤ sigs.length
      ∧ (∀ p ∈ st.owners.zip sigs,
          recover (txHashOfCall keccak st.owners self toAddr value data operation
            domainName domainVersion chainId domainSalt nonce) p.2 = p.1)
      ∧ ∀ sigs2, ∃ e,
          execTransaction keccak recover st2 self toAddr value data operation
            domainName domainVersion chainId domainSalt nonce sigs2
          = .error e := by
  unfold execTransaction at h
  by_cases hmem : txHashOfCall keccak st.owners self toAddr value data operation
      domainName domainVersion chainId domainSalt nonce ∈ st.isExecuted
  · simp [hmem] at h
  · rw [if_neg hmem] at h
    cases hcs : checkSigs recover (txHashOfCall keccak st.owners self toAddr
        value data operation domainName domainVersion chainId domainSalt nonce) 0
        st.owners sigs with
    | error e => rw [hcs] at h; exact absurd h (by simp)
    | ok u =>
      obtain ⟨⟩ := u
      rw [hcs] at h
      obtain ⟨hc, hl, hz⟩ := checkSigs_ok recover _ st.owners 0 sigs hcs
      have hst2 : st2 = { st with
          isExecuted := txHashOfCall keccak st.owners self toAddr value data
            operation domainName domainVersion chainId domainSalt nonce
            :: st.isExecuted } := by
        cases h
        rfl
      refine ⟨hmem, hc, hl, hz, ?_⟩
      intro sigs2
      refine ⟨"Transacation has already been executed", ?_⟩
      unfold execTransaction
      rw [if_pos ?_]
      rw [hst2]
      exact List.mem_cons_self _ _

/-- C6 witness: the fixture call succeeds against the fresh multisig
state, and the theorem's conclusions hold there, including rejection of
the replay. -/
theorem execTransaction_auth_and_replay_witness :
    execTransaction id msRecover msState 0 0 0 [] 0 [] [] 0 [] 0 [1, 2]
        = .ok { owners := [1, 2], isExecuted := [msTxHash] }
      ∧ (txHashOfCall id msState.owners 0 0 0 [] 0 [] [] 0 [] 0
            ∉ msState.isExecuted
        ∧ List.Chain (· < ·) 0 msState.owners
        ∧ msState.owners.length ≤ [1, 2].length
        ∧ (∀ p ∈ msState.owners.zip [1, 2],
            msRecover (txHashOfCall id msState.owners 0 0 0 [] 0 [] [] 0 [] 0)
              p.2 = p.1)
        ∧ ∀ sigs2, ∃ e,
            execTransaction id msRecover
              { owners := [1, 2], isExecuted := [msTxHash] }
              0 0 0 [] 0 [] [] 0 [] 0 sigs2 = .error e) :=
  have h : execTransaction id msRecover msState 0 0 0 [] 0 [] [] 0 [] 0 [1, 2]
      = .ok { owners := [1, 2], isExecuted := [msTxHash] } := by rfl
  ⟨h, execTransaction_auth_and_replay id msRecover msState
    { owners := [1, 2], isExecuted := [msTxHash] }
    0 0 0 [] 0 [] [] 0 [] 0 [1, 2] h⟩

/-- C8: when the starting block is strictly past the head of every
configured chain (and at least one chain is configured), `parseLogsFrom`
fails with the typed past-current-block error and emits no event on
either event channel. -/
theorem parseLogsFrom_future_start (chains : List ChainView)
    (startingBlock : Nat) (hne : chains ≠ [])
    (hall : ∀ c ∈ chains, c.head < startingBlock) :
    ∃ e, parseLogsFrom chains startingBlock = (([], []), .error e) := by
  match chains with
  | [] => exact absurd rfl hne
  | chain :: rest =>
    have hhead : chain.head < startingBlock :=
      hall chain (List.mem_cons_self _ _)
    refine ⟨"Cannot parse events past current block (current: "
      ++ toString chain.head ++ ", starting: " ++ toString startingBlock ++ ")", ?_⟩
    unfold parseLogsFrom
    rw [if_pos hhead]

/-- C8 witness: a single chain at head 5 queried from block 6. -/
theorem parseLogsFrom_future_start_witness :
    ([(⟨5, fun _ _ => [], fun _ _ => []⟩ : ChainView)] ≠ [])
      ∧ (∀ c ∈ [(⟨5, fun _ _ => [], fun _ _ => []⟩ : ChainView)], c.head < 6)
      ∧ ∃ e, parseLogsFrom [(⟨5, fun _ _ => [], fun _ _ => []⟩ : ChainView)] 6
          = (([], []), .error e) :=
  have hne : ([(⟨5, fun _ _ => [], fun _ _ => []⟩ : ChainView)] ≠ []) := by
    simp
  have hall : ∀ c ∈ [(⟨5, fun _ _ => [], fun _ _ => []⟩ : ChainView)],
      c.head < 6 := by
    intro c hc
    rw [List.mem_singleton.mp hc]
    decide
  ⟨hne, hall, parseLogsFrom_future_start _ 6 hne hall⟩

/-- A successful lookup means some binding with the key is present. -/
theorem any_of_lookupA_some {α : Type} {l : List (String × α)} {k : String}
    {v : α} (h : lookupA l k = some v) :
    l.any (fun p => p.1 == k) = true := by
  induction l with
  | nil => simp [lookupA] at h
  | cons p l ih =>
    rw [lookupA_cons] at h
    by_cases hp : (p.1 == k) = true
    · simp [List.any_cons, hp]
    · rw [if_neg hp] at h
      simp [List.any_cons, ih h]

/-- `getAppInstance` after `setState` returns the replaced app, provided
the app was present before. -/
theorem getAppInstanceP_setStateP (ch : PStateChannel) (k : String)
    (app : PAppInstance) (newState : Bytes) (t : Nat)
    (h : ch.apps.any (fun p => p.1 == k) = true) :
    getAppInstanceP (setStateP ch k app newState t) k
      = some { app with
          latestState := newState
          versionNumber := app.versionNumber + 1
          timeout := t
          latestAction := none } := by
  unfold getAppInstanceP setStateP
  exact lookupA_mapSet ch.apps k _ h

/-- C4: with the channel and app present, validation passing and the
counterparty's signature valid, the initiator's trace persists a
single-signed commitment together with the app marked by the pending
action strictly before the send-and-wait, and persists the double-signed
commitment with the new app state strictly after it (as the final
instruction); the responder succeeds and every commitment it persists
carries two signatures. -/
theorem takeAction_persist_order (env : ProtocolEnv) (ch : PStateChannel)
    (params : TakeActionParams) (counterSig : Nat) (app : PAppInstance)
    (happ : getAppInstanceP ch params.appIdentityHash = some app)
    (hval : env.validationError = none)
    (hsig : env.recover
        (takeActionDigest env app params.action params.stateTimeout)
        counterSig = params.counterpartyAddr) :
    ((takeActionInitiator env (some ch) params counterSig).2 = .ok ()
      ∧ ∃ i j k, i < j ∧ j < k
        ∧ (∃ app1 c1,
            (takeActionInitiator env (some ch) params counterSig).1.get? i
              = some (.persistAppInstance ch app1 c1)
            ∧ app1.latestAction = some params.action
            ∧ c1.signatures.length = 1)
        ∧ (∃ s, (takeActionInitiator env (some ch) params counterSig).1.get? j
            = some (.ioSendAndWait s))
        ∧ (∃ ch2 app2 c2,
            (takeActionInitiator env (some ch) params counterSig).1.get? k
              = some (.persistAppInstance ch2 app2 c2)
            ∧ c2.signatures.length = 2
            ∧ app2.latestState = env.applyAction app.latestState params.action
            ∧ k + 1 = (takeActionInitiator env (some ch) params counterSig).1.length))
    ∧ ((takeActionResponder env (some ch) params counterSig).2 = .ok ()
      ∧ ∀ ch2 app2 c,
          Instr.persistAppInstance ch2 app2 c
              ∈ (takeActionResponder env (some ch) params counterSig).1
          → c.signatures.length = 2) := by
  have hpost := getAppInstanceP_setStateP ch params.appIdentityHash app
    (env.applyAction app.latestState params.action) params.stateTimeout
    (any_of_lookupA_some happ)
  have hassert : assertIsValidSignature env.recover params.counterpartyAddr
      (takeActionDigest env app params.action params.stateTimeout) counterSig
      = .ok () := by
    unfold assertIsValidSignature
    rw [if_pos hsig]
  simp only [takeActionDigest, hashToSign, appIdentityToHash,
    List.cons_append, List.nil_append] at hassert
  have heqI : takeActionInitiator env (some ch) params counterSig
      = ([.opValidate,
          .opSign (takeActionDigest env app params.action params.stateTimeout),
          .persistAppInstance ch (setActionP app params.action)
            (singleSignedOf env app params.action params.stateTimeout),
          .ioSendAndWait (env.sign (takeActionDigest env app params.action
            params.stateTimeout)),
          .verifySig params.counterpartyAddr counterSig,
          .persistAppInstance
            (setStateP ch params.appIdentityHash app
              (env.applyAction app.latestState params.action)
              params.stateTimeout)
            (postAppOf env app params.action params.stateTimeout)
            (doubleSignedOf env app params.action params.stateTimeout
              counterSig)], .ok ()) := by
    simp only [takeActionInitiator, happ, hval, hpost, hassert,
      getSetStateCommitmentP, commitmentView, takeActionDigest, hashToSign,
      appIdentityToHash, singleSignedOf, doubleSignedOf, postAppOf,
      postCommitmentView, List.append_eq, List.cons_append, List.nil_append]
  have heqR : takeActionResponder env (some ch) params counterSig
      = ([.opValidate,
          .verifySig params.counterpartyAddr counterSig,
          .opSign (takeActionDigest env app params.action params.stateTimeout),
          .persistAppInstance
            (setStateP ch params.appIdentityHash app
              (env.applyAction app.latestState params.action)
              params.stateTimeout)
            (postAppOf env app params.action params.stateTimeout)
            (doubleSignedOf env app params.action params.stateTimeout
              counterSig),
          .ioSend (env.sign (takeActionDigest env app params.action
            params.stateTimeout))], .ok ()) := by
    simp only [takeActionResponder, happ, hval, hpost, hassert,
      getSetStateCommitmentP, commitmentView, takeActionDigest, hashToSign,
      appIdentityToHash, singleSignedOf, doubleSignedOf, postAppOf,
      postCommitmentView, List.append_eq, List.cons_append, List.nil_append]
  constructor
  · constructor
    · rw [heqI]
    · refine ⟨2, 3, 5, by decide, by decide, ?_, ?_, ?_⟩
      · refine ⟨setActionP app params.action,
          singleSignedOf env app params.action params.stateTimeout, ?_, rfl, rfl⟩
        rw [heqI]
        rfl
      · refine ⟨env.sign (takeActionDigest env app params.action
          params.stateTimeout), ?_⟩
        rw [heqI]
        rfl
      · refine ⟨setStateP ch params.appIdentityHash app
            (env.applyAction app.latestState params.action) params.stateTimeout,
          postAppOf env app params.action params.stateTimeout,
          doubleSignedOf env app params.action params.stateTimeout counterSig,
          ?_, rfl, rfl, ?_⟩
        · rw [heqI]
          rfl
        · rw [heqI]
          rfl
  · constructor
    · rw [heqR]
    · intro ch2 app2 c hc
      rw [heqR] at hc
      simp only [List.mem_cons, List.not_mem_nil, or_false] at hc
      rcases hc with hc | hc | hc | hc | hc
      · exact Instr.noConfusion hc
      · exact Instr.noConfusion hc
      · exact Instr.noConfusion hc
      · injection hc with h1 h2 h3
        subst h3
        rfl
      · exact Instr.noConfusion hc

/-- C4 witness: the fixture TakeAction run with a valid counterparty
signature (42 recovers to address 42). -/
theorem takeAction_persist_order_witness :
    getAppInstanceP chW "h" = some app0W
      ∧ envW.validationError = none
      ∧ envW.recover (takeActionDigest envW app0W 3 7) 42 = 42
      ∧ (takeActionInitiator envW (some chW) paramsW 42).2 = .ok ()
      ∧ (takeActionResponder envW (some chW) paramsW 42).2 = .ok () :=
  have h := takeAction_persist_order envW chW paramsW 42 app0W rfl rfl rfl
  ⟨rfl, rfl, rfl, h.1.1, h.2.1⟩

/-- C5: with the channel and app present and validation passing, a
counterparty signature that does not recover to the expected participant
address makes both flows abort with the signature error right at the
verification step: the initiator's trace ends at the verify instruction
with only the earlier single-signed persist (no double-signed commitment
is ever persisted), and the responder's trace ends at the verify
instruction with no persist at all. -/
theorem takeAction_signature_mismatch (env : ProtocolEnv)
    (ch : PStateChannel) (params : TakeActionParams) (counterSig : Nat)
    (app : PAppInstance)
    (happ : getAppInstanceP ch params.appIdentityHash = some app)
    (hval : env.validationError = none)
    (hbad : env.recover
        (takeActionDigest env app params.action params.stateTimeout)
        counterSig ≠ params.counterpartyAddr) :
    ((takeActionInitiator env (some ch) params counterSig).2
        = .error "Invalid signature"
      ∧ (takeActionInitiator env (some ch) params counterSig).1.getLast?
          = some (.verifySig params.counterpartyAddr counterSig)
      ∧ ∀ ch2 app2 c,
          Instr.persistAppInstance ch2 app2 c
              ∈ (takeActionInitiator env (some ch) params counterSig).1
          → c.signatures.length = 1)
    ∧ ((takeActionResponder env (some ch) params counterSig).2
        = .error "Invalid signature"
      ∧ (takeActionResponder env (some ch) params counterSig).1.getLast?
          = some (.verifySig params.counterpartyAddr counterSig)
      ∧ ∀ ch2 app2 c,
          Instr.persistAppInstance ch2 app2 c
              ∉ (takeActionResponder env (some ch) params counterSig).1) := by
  have hpost := getAppInstanceP_setStateP ch params.appIdentityHash app
    (env.applyAction app.latestState params.action) params.stateTimeout
    (any_of_lookupA_some happ)
  have hassert : assertIsValidSignature env.recover params.counterpartyAddr
      (takeActionDigest env app params.action params.stateTimeout) counterSig
      = .error "Invalid signature" := by
    unfold assertIsValidSignature
    rw [if_neg hbad]
  simp only [takeActionDigest, hashToSign, appIdentityToHash,
    List.cons_append, List.nil_append] at hassert
  have heqI : takeActionInitiator env (some ch) params counterSig
      = ([.opValidate,
          .opSign (takeActionDigest env app params.action params.stateTimeout),
          .persistAppInstance ch (setActionP app params.action)
            (singleSignedOf env app params.action params.stateTimeout),
          .ioSendAndWait (env.sign (takeActionDigest env app params.action
            params.stateTimeout)),
          .verifySig params.counterpartyAddr counterSig],
          .error "Invalid signature") := by
    simp only [takeActionInitiator, happ, hval, hpost, hassert,
      getSetStateCommitmentP, commitmentView, takeActionDigest, hashToSign,
      appIdentityToHash, singleSignedOf, postCommitmentView,
      List.append_eq, List.cons_append, List.nil_append]
  have heqR : takeActionResponder env (some ch) params counterSig
      = ([.opValidate, .verifySig params.counterpartyAddr counterSig],
          .error "Invalid signature") := by
    simp only [takeActionResponder, happ, hval, hpost, hassert,
      getSetStateCommitmentP, commitmentView, takeActionDigest, hashToSign,
      appIdentityToHash, List.append_eq, List.cons_append, List.nil_append]
  refine ⟨⟨?_, ?_, ?_⟩, ?_, ?_, ?_⟩
  · rw [heqI]
  · rw [heqI]
    rfl
  · intro ch2 app2 c hc
    rw [heqI] at hc
    simp only [List.mem_cons, List.not_mem_nil, or_false] at hc
    rcases hc with hc | hc | hc | hc | hc
    · exact Instr.noConfusion hc
    · exact Instr.noConfusion hc
    · injection hc with h1 h2 h3
      subst h3
      rfl
    · exact Instr.noConfusion hc
    · exact Instr.noConfusion hc
  · rw [heqR]
  · rw [heqR]
    rfl
  · intro ch2 app2 c hc
    rw [heqR] at hc
    simp only [List.mem_cons, List.not_mem_nil, or_false] at hc
    rcases hc with hc | hc
    · exact Instr.noConfusion hc
    · exact Instr.noConfusion hc

/-- C5 witness: the fixture TakeAction run with signature 5, which
recovers to address 5 rather than the expected 42. -/
theorem takeAction_signature_mismatch_witness :
    getAppInstanceP chW "h" = some app0W
      ∧ envW.validationError = none
      ∧ envW.recover (takeActionDigest envW app0W 3 7) 5 ≠ 42
      ∧ (takeActionInitiator envW (some chW) paramsW 5).2
          = .error "Invalid signature"
      ∧ (takeActionResponder envW (some chW) paramsW 5).2
          = .error "Invalid signature" :=
  have h := takeAction_signature_mismatch envW chW paramsW 5 app0W rfl rfl
    (by decide)
  ⟨rfl, rfl, by decide, h.1.1, h.2.1⟩

end Indra
